import Mathlib

/-!
Shallow embedding of the tgbot package: a Telegram bot wrapper with a
polling acquisition loop (pollUpdates), a bounded update channel, a group
of worker goroutines, an optional external worker pool, and command
routing with fallback handlers.  Definitions are translated from the
repository sources bot.go (src/unnamed/part_000), context.go and
options.go.  External library calls (the telegram API client, the ants
pool) are modelled as environment inputs; side effects (error reporting,
replies) are modelled as an explicit effect trace.
-/

namespace TgBot

/-- Model of tgbotapi.Message.  The library accessors IsCommand, Command
and CommandArguments are external to the repository, so their results on
a given message are modelled as fields. -/
structure Message where
  text : String
  isCommand : Bool
  command : String
  commandArguments : String
deriving DecidableEq, Repr

/-- Model of tgbotapi.Update: the update id and the four message-bearing
fields inspected by Context.Message in context.go.  Absent (nil) fields
are modelled with Option. -/
structure Update where
  updateID : Int
  message : Option Message
  editedMessage : Option Message
  channelPost : Option Message
  editedChannelPost : Option Message
deriving DecidableEq, Repr

/-- Model of the Context type of context.go.  Only the update field is
relevant to the routing accessors; the embedded context.Context and
BotAPI carry no data the claims mention. -/
structure Context where
  update : Update
deriving DecidableEq, Repr

/-- Context.Message from context.go: the switch returning the first
non-nil of Message, EditedMessage, ChannelPost, EditedChannelPost. -/
def Context.Message (ctx : Context) : Option Message :=
  if ctx.update.message.isSome then ctx.update.message
  else if ctx.update.editedMessage.isSome then ctx.update.editedMessage
  else if ctx.update.channelPost.isSome then ctx.update.channelPost
  else if ctx.update.editedChannelPost.isSome then ctx.update.editedChannelPost
  else none

/-- Context.Command from context.go: message.Command() when Message()
is non-nil, otherwise the empty string. -/
def Context.Command (ctx : Context) : String :=
  match ctx.Message with
  | some message => message.command
  | none => ""

/-- Context.CommandArgs from context.go (CommandArgs delegates to
message.CommandArguments()). -/
def Context.CommandArgs (ctx : Context) : String :=
  match ctx.Message with
  | some message => message.commandArguments
  | none => ""

/-- Errors flowing into the error handler (the error-reporting
collaborator).  Each constructor corresponds to one fmt.Errorf / error
site in the source. -/
inductive GoErr where
  | panicErr (v : String)
  | handlerErr (e : String)
  | sendErr (e : String)
  | submitErr
  | setupFailed (e : String)
deriving DecidableEq, Repr

/-- Identity of the handler that a dispatch resolved to: a user-supplied
handler (command handler, custom undefined-command handler or updates
handler), or the built-in default branch of Bot.undefinedCmdHandler. -/
inductive HandlerRef where
  | user (id : Nat)
  | undefinedDefault
deriving DecidableEq, Repr

/-- Observable effects of processing one update: the start of one
executeHandler run, a handler invocation, a reply sent through the API,
and a call to bot.errHandler. -/
inductive Effect where
  | execStart
  | invoked (h : HandlerRef)
  | reply (text : String)
  | reportErr (e : GoErr)
deriving DecidableEq, Repr

/-- Outcome of invoking a Handler (func(ctx) error) on the current
update: normal return, an error return, or a panic.  Panic values are
modelled as strings (the non-nil panics of Go). -/
inductive HandlerResult where
  | ok
  | err (e : String)
  | panicked (v : String)
deriving DecidableEq, Repr

/-- A Handler value: an identity plus its behaviour on the current
update. -/
structure Handler where
  id : Nat
  run : HandlerResult
deriving DecidableEq, Repr

/-- An UpdatesHandler value (func(ctx), no error return): an identity
plus, when it panics on the current update, the panic value. -/
structure UHandler where
  id : Nat
  panicsWith : Option String
deriving DecidableEq, Repr

/-- A panic handler (func(interface\x7b\x7d) string): the message it
returns for a panic value, and the errors it reports to bot.errHandler
while running. -/
structure PanicHandler where
  msg : String → String
  reports : String → List GoErr

/-- The tip message returned by the default panic handler installed by
NewBot. -/
def defaultTipMessage : String := "oops! Service is temporarily unavailable"

/-- The default panic handler installed by NewBot (bot.go lines 84-89):
it reports fmt.Errorf("tgbot panic: %v", v) through bot.errHandler (the
panic value is non-nil here) and returns the fixed tip message. -/
def defaultPanicHandler : PanicHandler where
  msg := fun _ => defaultTipMessage
  reports := fun v => [GoErr.panicErr v]

/-- Model of the Bot struct (bot.go lines 37-67) restricted to the
fields the claims depend on.  Function-typed fields that may be nil are
modelled with Option; errHandler is never nil after NewBot and carries
only an identity (its calls appear in the effect trace).  The
autoSetupCommands field is referenced by WithAutoSetupCommands in
options.go but is absent from the Bot struct literal of NewBot, so it is
never initialised: its Go zero value is false. -/
structure Bot where
  cmdHandlers : List (String × Handler)
  undefinedCommandHandler : Option Handler
  updatesHandler : Option UHandler
  errHandler : Option Nat
  panicHandler : Option PanicHandler
  hasWorkerPool : Bool
  workerNum : Int
  autoSetupCommands : Bool
  timeout : Int
  updateTimeout : Int
  limit : Int
  bufSize : Int
  offset : Int

/-- An Option mutates the Bot under construction, as in options.go. -/
abbrev Option' := Bot → Bot

/-- WithTimeout from options.go. -/
def WithTimeout (d : Int) : Option' := fun b => { b with timeout := d }

/-- WithUpdateTimeout from options.go. -/
def WithUpdateTimeout (t : Int) : Option' := fun b => { b with updateTimeout := t }

/-- WithWorkerNum from options.go lines 28-34: the assignment is guarded
by b.workerNum being positive, the argument n itself is not tested. -/
def WithWorkerNum (n : Int) : Option' := fun b =>
  if b.workerNum > 0 then { b with workerNum := n } else b

/-- WithWorkerPool from options.go: stores the pool (here: whether a
non-nil pool was supplied). -/
def WithWorkerPool (p : Bool) : Option' := fun b => { b with hasWorkerPool := p }

/-- WithUndefinedCmdHandler from options.go lines 44-50: a nil handler
is ignored. -/
def WithUndefinedCmdHandler (h : Option Handler) : Option' := fun b =>
  match h with
  | some h => { b with undefinedCommandHandler := some h }
  | none => b

/-- WithErrorHandler from options.go lines 53-59: a nil handler is
ignored. -/
def WithErrorHandler (h : Option Nat) : Option' := fun b =>
  match h with
  | some h => { b with errHandler := some h }
  | none => b

/-- WithAutoSetupCommands from options.go lines 62-66. -/
def WithAutoSetupCommands (v : Bool) : Option' := fun b =>
  { b with autoSetupCommands := v }

/-- WithBufferSize from options.go. -/
def WithBufferSize (size : Int) : Option' := fun b => { b with bufSize := size }

/-- WithLimitUpdates from options.go. -/
def WithLimitUpdates (limit : Int) : Option' := fun b => { b with limit := limit }

/-- WithUpdatesHandler from options.go: unconditional assignment. -/
def WithUpdatesHandler (h : Option UHandler) : Option' := fun b =>
  { b with updatesHandler := h }

/-- WithPanicHandler from options.go lines 90-94: unconditional
assignment, so a nil argument clears the default panic handler. -/
def WithPanicHandler (h : Option PanicHandler) : Option' := fun b =>
  { b with panicHandler := h }

/-- NewBot (bot.go lines 69-107), parametrised by the value of
runtime.GOMAXPROCS(0): the struct literal with its defaults, then the
default panic handler, then the options in order, then the bufSize
fallback to limit. -/
def NewBot (gomaxprocs : Int) (opts : List Option') : Bot :=
  let b : Bot :=
    { cmdHandlers := []
      undefinedCommandHandler := none
      updatesHandler := none
      errHandler := some 0
      panicHandler := none
      hasWorkerPool := false
      workerNum := gomaxprocs
      autoSetupCommands := false
      timeout := 0
      updateTimeout := 60
      limit := 100
      bufSize := 0
      offset := 0 }
  let b : Bot := { b with panicHandler := some defaultPanicHandler }
  let b : Bot := opts.foldl (fun b o => o b) b
  if b.bufSize = 0 then { b with bufSize := b.limit } else b

/-- Startup actions performed by Bot.Run (bot.go lines 267-283). -/
inductive StartAction where
  | setupCommands
  | startWorkers
  | pollUpdates
deriving DecidableEq, Repr

/-- Bot.Run (bot.go lines 267-283), with the outcome of the
setupCommands API request supplied by the environment: Run calls
setupCommands unconditionally; on failure it aborts before starting
workers and the poll loop. -/
def Bot.Run (_bot : Bot) (setupErr : Option String) : List StartAction × Option GoErr :=
  match setupErr with
  | some e => ([StartAction.setupCommands], some (GoErr.setupFailed e))
  | none => ([StartAction.setupCommands, StartAction.startWorkers,
              StartAction.pollUpdates], none)

/-- Environment inputs for processing one update: the result of
workerPool.Submit, and the outcome of ctx.Send for a reply with the
given text (none = success, some e = the send error). -/
structure Env where
  submitOk : Bool
  sendErr : String → Option String

/-- Result of one function run: the effects it produced, the error it
returned (for func(ctx) error), and the panic propagating out of it. -/
structure ExecRun where
  effects : List Effect
  ret : Option GoErr
  panicV : Option String
deriving DecidableEq, Repr

/-- Invoking a Handler value: the invocation effect, then its declared
outcome. -/
def invokeHandler (h : Handler) : ExecRun :=
  match h.run with
  | HandlerResult.ok => ⟨[Effect.invoked (HandlerRef.user h.id)], none, none⟩
  | HandlerResult.err e => ⟨[Effect.invoked (HandlerRef.user h.id)], some (GoErr.handlerErr e), none⟩
  | HandlerResult.panicked v => ⟨[Effect.invoked (HandlerRef.user h.id)], none, some v⟩

/-- The reply text of the default undefined-command branch
(bot.go line 213). -/
def unrecognizedReply : String := "Unrecognized command!!!"

/-- Bot.undefinedCmdHandler (bot.go lines 209-214): delegate to the
custom undefinedCommandHandler when one is set, otherwise reply
"Unrecognized command!!!" and return the send error. -/
def Bot.undefinedCmdHandlerRun (bot : Bot) (env : Env) : ExecRun :=
  match bot.undefinedCommandHandler with
  | some h => invokeHandler h
  | none =>
      match env.sendErr unrecognizedReply with
      | none => ⟨[Effect.invoked HandlerRef.undefinedDefault, Effect.reply unrecognizedReply],
                 none, none⟩
      | some e => ⟨[Effect.invoked HandlerRef.undefinedDefault, Effect.reply unrecognizedReply],
                   some (GoErr.sendErr e), none⟩

/-- Go map lookup on cmdHandlers, modelled as an association list. -/
def mapLookup (m : List (String × Handler)) (k : String) : Option Handler :=
  (m.find? (fun p => p.1 == k)).map (fun p => p.2)

/-- Bot.executeCommandHandler (bot.go lines 190-199): look up the
handler by command name, fall back to undefinedCmdHandler, invoke it,
and report a returned error through bot.errHandler.  A panic skips the
error check and propagates. -/
def Bot.executeCommandHandler (bot : Bot) (env : Env) (cmd : String) : ExecRun :=
  let r :=
    match mapLookup bot.cmdHandlers cmd with
    | some h => invokeHandler h
    | none => bot.undefinedCmdHandlerRun env
  if r.panicV.isSome then r
  else
    match r.ret with
    | some e => ⟨r.effects ++ [Effect.reportErr e], none, none⟩
    | none => r

/-- Bot.executeUpdatesHandler (bot.go lines 201-207): nothing when no
updates handler is set, otherwise invoke it (it returns no error, but
may panic). -/
def Bot.executeUpdatesHandler (bot : Bot) : ExecRun :=
  match bot.updatesHandler with
  | none => ⟨[], none, none⟩
  | some h =>
      match h.panicsWith with
      | none => ⟨[Effect.invoked (HandlerRef.user h.id)], none, none⟩
      | some v => ⟨[Effect.invoked (HandlerRef.user h.id)], none, some v⟩

/-- The executeHandler closure of handleUpdate (bot.go lines 163-179):
route to the command handler when update.Message is non-nil and a
command, otherwise to the updates handler.  The context-timeout wrapper
and ctx.put() produce no observable effect and are omitted.  The
execStart marker records that one execution of the closure began. -/
def Bot.executeHandler (bot : Bot) (env : Env) (u : Update) : ExecRun :=
  let r :=
    match u.message with
    | some m =>
        if m.isCommand then bot.executeCommandHandler env (Context.Command ⟨u⟩)
        else bot.executeUpdatesHandler
    | none => bot.executeUpdatesHandler
  ⟨Effect.execStart :: r.effects, r.ret, r.panicV⟩

/-- The condition under which handleUpdate installs its deferred recover
block (bot.go line 151). -/
def Bot.installsRecovery (bot : Bot) : Bool :=
  !bot.hasWorkerPool || bot.panicHandler.isSome

/-- The deferred recover block of handleUpdate (bot.go lines 152-160),
run with recovered panic value v: call bot.panicHandler, and when the
tip message is non-empty reply with it, reporting a failed send through
bot.errHandler.  A nil panicHandler is itself called, which panics
again and kills the goroutine. -/
def recoverBlock (ph : Option PanicHandler) (env : Env) (v : String) :
    List Effect × Option String :=
  match ph with
  | none => ([], some "runtime error: invalid memory address or nil pointer dereference")
  | some f =>
      let tip := f.msg v
      let reported := (f.reports v).map Effect.reportErr
      if tip = "" then (reported, none)
      else
        match env.sendErr tip with
        | none => (reported ++ [Effect.reply tip], none)
        | some e => (reported ++ [Effect.reply tip, Effect.reportErr (GoErr.sendErr e)], none)

/-- One inline run of executeHandler on the calling goroutine together
with handleUpdate's deferred recover block: the effects produced there
and the panic escaping the goroutine, if any. -/
def Bot.inlineRun (bot : Bot) (env : Env) (u : Update) : List Effect × Option String :=
  let r := bot.executeHandler env u
  match r.panicV with
  | none => (r.effects, none)
  | some v =>
      if bot.installsRecovery then
        let p := recoverBlock bot.panicHandler env v
        (r.effects ++ p.1, p.2)
      else (r.effects, some v)

/-- Result of Bot.handleUpdate: the effect trace on the calling (worker)
goroutine, the run submitted to the worker pool goroutine when the
submission succeeded, and the panic escaping handleUpdate. -/
structure HUResult where
  trace : List Effect
  poolRun : Option ExecRun
  panicOut : Option String

/-- Bot.handleUpdate (bot.go lines 147-188): with a worker pool, submit
executeHandler to the pool (reporting a failed submission through
bot.errHandler); in every case executeHandler then also runs inline on
the calling goroutine — the source has no return after the successful
submission. -/
def Bot.handleUpdate (bot : Bot) (env : Env) (u : Update) : HUResult :=
  if bot.hasWorkerPool then
    if env.submitOk then
      let p := bot.inlineRun env u
      ⟨p.1, some (bot.executeHandler env u), p.2⟩
    else
      let p := bot.inlineRun env u
      ⟨Effect.reportErr GoErr.submitErr :: p.1, none, p.2⟩
  else
    let p := bot.inlineRun env u
    ⟨p.1, none, p.2⟩

/-- Number of executeHandler runs recorded in a HUResult, counting the
execStart markers of the worker-goroutine trace and of the pool run. -/
def HUResult.execCount (r : HUResult) : Nat :=
  r.trace.countP (fun e => decide (e = Effect.execStart)) +
    (match r.poolRun with
     | some pr => pr.effects.countP (fun e => decide (e = Effect.execStart))
     | none => 0)

/-- The body of startWorker (bot.go lines 217-229) iterated over a list
of received updates: each update is passed to handleUpdate; a panic
escaping handleUpdate terminates the goroutine, ending the loop. -/
def Bot.workerLoop (bot : Bot) (envf : Update → Env) : List Update → List HUResult
  | [] => []
  | u :: rest =>
      let r := bot.handleUpdate (envf u) u
      match r.panicOut with
      | some _ => [r]
      | none => r :: bot.workerLoop envf rest

/-- The handler invocations recorded in a run. -/
def ExecRun.invokedRefs (r : ExecRun) : List HandlerRef :=
  r.effects.filterMap (fun e =>
    match e with
    | Effect.invoked h => some h
    | _ => none)

/-- The acquisition inner loop of pollUpdates (bot.go lines 258-263)
over one fetched batch: starting from the current offset (the
watermark), an update with UpdateID at least the offset advances the
offset to UpdateID + 1 and is sent into updateC; any other update is
skipped.  Returns the final offset and the updates sent, in order. -/
def pollBatch (offset : Int) : List Update → Int × List Update
  | [] => (offset, [])
  | u :: rest =>
      if u.updateID ≥ offset then
        let r := pollBatch (u.updateID + 1) rest
        (r.1, u :: r.2)
      else pollBatch offset rest

/-- The two mutable-state operations of the acquisition inner loop: a
write to bot.offset and a send into updateC. -/
inductive PollOp where
  | setOffset (n : Int)
  | enqueue (id : Int)
deriving DecidableEq, Repr

/-- The acquisition inner loop again (bot.go lines 258-263), as the
sequence of state operations it performs: for an accepted update the
source writes bot.offset = UpdateID + 1 first and sends the update into
updateC second. -/
def pollBatchOps (offset : Int) : List Update → List PollOp
  | [] => []
  | u :: rest =>
      if u.updateID ≥ offset then
        PollOp.setOffset (u.updateID + 1) :: PollOp.enqueue u.updateID ::
          pollBatchOps (u.updateID + 1) rest
      else pollBatchOps offset rest

/-- The offset values written during a trace of poll operations. -/
def setOffsetValues (t : List PollOp) : List Int :=
  t.filterMap (fun op =>
    match op with
    | PollOp.setOffset n => some n
    | PollOp.enqueue _ => none)

/-- The watermark is mutated only after the corresponding event has been
enqueued: every write of offset value n is preceded in the trace by the
enqueue of the event with id n - 1. -/
def mutatedOnlyAfterEnqueue (t : List PollOp) : Prop :=
  ∀ i n, t.get? i = some (PollOp.setOffset n) →
    ∃ j, j < i ∧ t.get? j = some (PollOp.enqueue (n - 1))

/-- The watermark is mutated immediately before the corresponding
enqueue: every write of offset value n is directly followed in the
trace by the enqueue of the event with id n - 1. -/
def mutatedJustBeforeEnqueue (t : List PollOp) : Prop :=
  ∀ i n, t.get? i = some (PollOp.setOffset n) →
    t.get? (i + 1) = some (PollOp.enqueue (n - 1))

/-- Control point of the pollUpdates goroutine (bot.go lines 237-265):
at the select at the top of the loop, inside the send loop with the
listed updates still to send, or returned. -/
inductive PState where
  | top
  | sending (pending : List Int)
  | exited
deriving DecidableEq, Repr

/-- Shutdown-relevant state of the running bot: the cancellation flag of
bot.ctx, the contents of updateC, the number of workers that have not
yet run wg.Done, the poll goroutine's control point, and whether Stop
has returned.  Updates are identified by their ids. -/
structure Sys where
  cancelled : Bool
  queue : List Int
  workers : Nat
  poller : PState
  stopReturned : Bool
deriving DecidableEq, Repr

/-- Interleaving semantics of the shutdown-relevant transitions of
bot.go, with updateC of capacity cap.
* cancel: Stop calls bot.cancel() (line 286).
* stopReturn: Stop's wg.Wait() returns once every worker has run
  wg.Done (lines 216-234 register exactly the workers, pollUpdates is
  never added to the wait group).
* workerDone / workerRecv: the two branches of the worker's select
  (lines 220-228); with the context cancelled the Done branch is ready
  and may be chosen even when updateC is non-empty.
* pollTopExit / pollFetch: the select with default at the top of
  pollUpdates (lines 239-244) followed by GetUpdates; the fetched batch
  (already filtered by the offset test) is arbitrary.
* pollSend: the send updateC <- &update (line 261) — a bare send with no
  cancellation branch, enabled only while the buffer has room.
* pollSendFlushDone: the batch is exhausted and the loop returns to the
  top. -/
inductive Step (cap : Nat) : Sys → Sys → Prop where
  | cancel {s : Sys} : s.cancelled = false →
      Step cap s { s with cancelled := true }
  | stopReturn {s : Sys} : s.cancelled = true → s.workers = 0 →
      s.stopReturned = false → Step cap s { s with stopReturned := true }
  | workerDone {s : Sys} : s.cancelled = true → 0 < s.workers →
      Step cap s { s with workers := s.workers - 1 }
  | workerRecv {s : Sys} (v : Int) (rest : List Int) : s.queue = v :: rest →
      0 < s.workers → Step cap s { s with queue := rest }
  | pollTopExit {s : Sys} : s.poller = PState.top → s.cancelled = true →
      Step cap s { s with poller := PState.exited }
  | pollFetch {s : Sys} (us : List Int) : s.poller = PState.top →
      s.cancelled = false → Step cap s { s with poller := PState.sending us }
  | pollSend {s : Sys} (v : Int) (rest : List Int) :
      s.poller = PState.sending (v :: rest) → s.queue.length < cap →
      Step cap s { s with queue := s.queue ++ [v], poller := PState.sending rest }
  | pollSendFlushDone {s : Sys} : s.poller = PState.sending [] →
      Step cap s { s with poller := PState.top }

/-- Reachability under the interleaving semantics. -/
def Reachable (cap : Nat) : Sys → Sys → Prop :=
  Relation.ReflTransGen (Step cap)

/-- C9: Context.Message() returns the first non-nil of the update's
Message, EditedMessage, ChannelPost and EditedChannelPost fields checked
in that fixed order, and nil when all four are nil; whenever Message()
is nil, Command() and CommandArgs() both return the empty string. -/
theorem c9_message_cascade (u : Update) :
    Context.Message ⟨u⟩ =
      [u.message, u.editedMessage, u.channelPost, u.editedChannelPost].findSome? id ∧
    (Context.Message ⟨u⟩ = none →
      Context.Command ⟨u⟩ = "" ∧ Context.CommandArgs ⟨u⟩ = "") := by
  constructor
  · cases hm : u.message <;> cases he : u.editedMessage <;>
      cases hc : u.channelPost <;> cases hp : u.editedChannelPost <;>
      simp [Context.Message, List.findSome?, hm, he, hc, hp]
  · intro h
    simp [Context.Command, Context.CommandArgs, h]

/-- Concrete instantiation of c9_message_cascade at an update whose four
message fields are all nil. -/
theorem c9_message_cascade_witness :
    Context.Message ⟨⟨3, none, none, none, none⟩⟩ = none ∧
    Context.Command ⟨⟨3, none, none, none, none⟩⟩ = "" ∧
    Context.CommandArgs ⟨⟨3, none, none, none, none⟩⟩ = "" := by
  have h := c9_message_cascade ⟨3, none, none, none, none⟩
  have hm : Context.Message (⟨⟨3, none, none, none, none⟩⟩ : Context) = none := by
    rw [h.1]; rfl
  exact ⟨hm, h.2 hm⟩

/-- C5 (counterexample): the claim says that applying WithWorkerNum
with an argument below the default leaves the worker count at the
default.  With default 4 (GOMAXPROCS = 4) and argument 2 the guard
b.workerNum > 0 passes and the count becomes 2, not 4: the guard tests
the current count, not the argument, so lowering is not ignored. -/
theorem c5_worker_num_lowered :
    (NewBot 4 []).workerNum = 4 ∧
    (2 : Int) < (NewBot 4 []).workerNum ∧
    (WithWorkerNum 2 (NewBot 4 [])).workerNum = 2 ∧
    (WithWorkerNum 2 (NewBot 4 [])).workerNum ≠ (NewBot 4 []).workerNum := by
  refine ⟨rfl, by decide, rfl, by decide⟩

/-- C5 (amended): WithWorkerNum n replaces the worker count with n —
including values below the default — whenever the current count is
positive (as the GOMAXPROCS default always is); the option is ignored
only when the current count is already non-positive.  The guard tests
the current count, never the argument. -/
theorem c5_worker_num_guard_amended (b : Bot) (n : Int) :
    (0 < b.workerNum → (WithWorkerNum n b).workerNum = n) ∧
    (b.workerNum ≤ 0 → WithWorkerNum n b = b) := by
  constructor
  · intro h
    simp [WithWorkerNum, h]
  · intro h
    simp [WithWorkerNum]
    omega

/-- Concrete instantiation of c5_worker_num_guard_amended: lowering the
count from the default 4 to 2 succeeds. -/
theorem c5_worker_num_guard_amended_witness :
    (WithWorkerNum 2 (NewBot 4 [])).workerNum = 2 :=
  (c5_worker_num_guard_amended (NewBot 4 []) 2).1 (by decide)

/-- C6 (counterexample): the claim says Start registers the command
menu if and only if the auto-register flag is enabled, with the flag
defaulting to on.  In the source the flag defaults to false (NewBot
never initialises it), and Run calls setupCommands even for a bot on
which the flag was explicitly set to false. -/
theorem c6_setup_commands_unconditional :
    (NewBot 4 []).autoSetupCommands = false ∧
    (NewBot 4 [WithAutoSetupCommands false]).autoSetupCommands = false ∧
    StartAction.setupCommands ∈ (Bot.Run (NewBot 4 [WithAutoSetupCommands false]) none).1 := by
  refine ⟨rfl, rfl, ?_⟩
  simp [Bot.Run]

/-- C6 (amended): Run always registers the command menu with the
external service, regardless of the auto-register flag — Run's
behaviour is independent of the bot configuration — and a registration
failure is fatal, aborting startup before workers or the poll loop
start.  The flag, settable through WithAutoSetupCommands, defaults to
off (it is never initialised by NewBot) and is never consulted. -/
theorem c6_run_registers_amended (bot : Bot) (se : Option String) :
    StartAction.setupCommands ∈ (bot.Run se).1 ∧
    (∀ b' : Bot, bot.Run se = b'.Run se) ∧
    (∀ e, se = some e → (bot.Run se).2 = some (GoErr.setupFailed e) ∧
      StartAction.startWorkers ∉ (bot.Run se).1 ∧
      StartAction.pollUpdates ∉ (bot.Run se).1) ∧
    (se = none → (bot.Run se).1 =
      [StartAction.setupCommands, StartAction.startWorkers, StartAction.pollUpdates] ∧
      (bot.Run se).2 = none) ∧
    (∀ g : Int, (NewBot g []).autoSetupCommands = false) := by
  refine ⟨?_, fun b' => rfl, ?_, ?_, fun g => rfl⟩
  · cases se <;> simp [Bot.Run]
  · intro e he
    subst he
    refine ⟨rfl, ?_, ?_⟩ <;> simp [Bot.Run]
  · intro he
    subst he
    exact ⟨rfl, rfl⟩

/-- Concrete instantiation of c6_run_registers_amended: with a failing
registration the startup aborts after setupCommands. -/
theorem c6_run_registers_amended_witness :
    StartAction.setupCommands ∈ (Bot.Run (NewBot 4 []) (some "boom")).1 ∧
    (Bot.Run (NewBot 4 []) (some "boom")).2 = some (GoErr.setupFailed "boom") ∧
    StartAction.startWorkers ∉ (Bot.Run (NewBot 4 []) (some "boom")).1 := by
  have h := c6_run_registers_amended (NewBot 4 []) (some "boom")
  have h2 := h.2.2.1 "boom" rfl
  exact ⟨h.1, h2.1, h2.2.1⟩

/-- C10: applying WithUndefinedCmdHandler or WithErrorHandler with a
nil argument leaves the bot unchanged (the defaults are preserved),
whereas WithPanicHandler with a nil argument sets the panic handler to
nil; and with a nil panic handler and a non-nil worker pool,
handleUpdate installs no panic recovery for the event. -/
theorem c10_nil_option_handlers (b : Bot) :
    WithUndefinedCmdHandler none b = b ∧
    WithErrorHandler none b = b ∧
    (WithPanicHandler none b).panicHandler = none ∧
    (b.panicHandler = none → b.hasWorkerPool = true → b.installsRecovery = false) := by
  refine ⟨rfl, rfl, rfl, ?_⟩
  intro h1 h2
  simp [Bot.installsRecovery, h1, h2]

/-- Concrete instantiation of c10_nil_option_handlers: a bot built with
WithPanicHandler nil and a worker pool installs no panic recovery. -/
theorem c10_nil_option_handlers_witness :
    (WithPanicHandler none (NewBot 4 [])).panicHandler = none ∧
    Bot.installsRecovery (WithWorkerPool true (WithPanicHandler none (NewBot 4 []))) = false := by
  refine ⟨(c10_nil_option_handlers (NewBot 4 [])).2.2.1, ?_⟩
  exact (c10_nil_option_handlers
    (WithWorkerPool true (WithPanicHandler none (NewBot 4 [])))).2.2.2 rfl rfl

/-- C8: for every command-shaped event, handler lookup is total and
exactly one handler is invoked: the registered handler when the command
name is registered, otherwise the fallback handler, which defaults to
sending the plain "Unrecognized command!!!" reply when no custom
fallback is configured. -/
theorem c8_dispatch_total (bot : Bot) (env : Env) (cmd : String) :
    (bot.executeCommandHandler env cmd).invokedRefs.length = 1 ∧
    (∀ h, mapLookup bot.cmdHandlers cmd = some h →
      (bot.executeCommandHandler env cmd).invokedRefs = [HandlerRef.user h.id]) ∧
    (mapLookup bot.cmdHandlers cmd = none →
      (∀ h, bot.undefinedCommandHandler = some h →
        (bot.executeCommandHandler env cmd).invokedRefs = [HandlerRef.user h.id]) ∧
      (bot.undefinedCommandHandler = none →
        (bot.executeCommandHandler env cmd).invokedRefs = [HandlerRef.undefinedDefault] ∧
        Effect.reply unrecognizedReply ∈ (bot.executeCommandHandler env cmd).effects)) := by
  cases hlk : mapLookup bot.cmdHandlers cmd with
  | some h =>
      cases hr : h.run <;>
        simp [Bot.executeCommandHandler, hlk, invokeHandler, hr, ExecRun.invokedRefs]
  | none =>
      cases hu : bot.undefinedCommandHandler with
      | some h =>
          cases hr : h.run <;>
            simp [Bot.executeCommandHandler, hlk, Bot.undefinedCmdHandlerRun, hu,
              invokeHandler, hr, ExecRun.invokedRefs]
      | none =>
          cases hs : env.sendErr unrecognizedReply <;>
            simp [Bot.executeCommandHandler, hlk, Bot.undefinedCmdHandlerRun, hu, hs,
              ExecRun.invokedRefs]

/-- Concrete instantiation of c8_dispatch_total at a bot with no
registered commands and no custom fallback: the default fallback is the
single invoked handler and it sends the plain reply. -/
theorem c8_dispatch_total_witness :
    ((NewBot 4 []).executeCommandHandler ⟨true, fun _ => none⟩ "x").invokedRefs =
      [HandlerRef.undefinedDefault] ∧
    Effect.reply unrecognizedReply ∈
      ((NewBot 4 []).executeCommandHandler ⟨true, fun _ => none⟩ "x").effects :=
  ((c8_dispatch_total (NewBot 4 []) ⟨true, fun _ => none⟩ "x").2.2 rfl).2 rfl

/-- Evaluation of the deferred recover block with the default panic
handler: report the panic, reply with the fixed non-empty tip message,
report a failed send, and never re-panic. -/
theorem recoverBlock_default (env : Env) (v : String) :
    recoverBlock (some defaultPanicHandler) env v =
      (Effect.reportErr (GoErr.panicErr v) :: Effect.reply defaultTipMessage ::
        (match env.sendErr defaultTipMessage with
         | none => []
         | some e => [Effect.reportErr (GoErr.sendErr e)]), none) := by
  have hne : ¬ defaultTipMessage = "" := by decide
  unfold recoverBlock
  simp only [defaultPanicHandler, List.map]
  rw [if_neg hne]
  cases env.sendErr defaultTipMessage <;> simp

/-- With the default panic handler installed, no panic escapes
handleUpdate: the deferred recover block is installed and the default
handler returns normally. -/
theorem handleUpdate_panicOut_default (bot : Bot) (env : Env) (u : Update)
    (hph : bot.panicHandler = some defaultPanicHandler) :
    (bot.handleUpdate env u).panicOut = none := by
  have hinst : bot.installsRecovery = true := by
    simp [Bot.installsRecovery, hph]
  have hin : (bot.inlineRun env u).2 = none := by
    unfold Bot.inlineRun
    cases hv : (bot.executeHandler env u).panicV with
    | none => simp [hv]
    | some v =>
        simp only [hv, hinst, if_true]
        rw [hph, recoverBlock_default]
  unfold Bot.handleUpdate
  cases bot.hasWorkerPool <;> cases env.submitOk <;> simp [hin]

/-- With the default panic handler installed, the worker loop processes
every received update: no handleUpdate call kills the goroutine. -/
theorem workerLoop_total_default (bot : Bot) (envf : Update → Env)
    (hph : bot.panicHandler = some defaultPanicHandler) :
    ∀ us : List Update, (bot.workerLoop envf us).length = us.length := by
  intro us
  induction us with
  | nil => rfl
  | cons u rest ih =>
      simp only [Bot.workerLoop]
      rw [handleUpdate_panicOut_default bot (envf u) u hph]
      simp [ih]

/-- C3: with the default panic handler configured and no worker pool
(execution inline on the worker), every handler panic is recovered at
the per-event boundary: the panic handler converts the panic into a
message while notifying the error handler, the non-empty tip message is
sent back as a best-effort reply whose send failure is reported and
swallowed, no panic escapes handleUpdate, and the worker that ran the
handler never terminates — it processes every following event. -/
theorem c3_panic_recovered_worker_survives (bot : Bot) (env : Env) (u : Update) (v : String)
    (hph : bot.panicHandler = some defaultPanicHandler)
    (hpool : bot.hasWorkerPool = false)
    (hpanic : (bot.executeHandler env u).panicV = some v) :
    (bot.handleUpdate env u).panicOut = none ∧
    Effect.reportErr (GoErr.panicErr v) ∈ (bot.handleUpdate env u).trace ∧
    defaultPanicHandler.msg v ≠ "" ∧
    Effect.reply defaultTipMessage ∈ (bot.handleUpdate env u).trace ∧
    (∀ e, env.sendErr defaultTipMessage = some e →
      Effect.reportErr (GoErr.sendErr e) ∈ (bot.handleUpdate env u).trace) ∧
    (∀ (envf : Update → Env) (us : List Update),
      (bot.workerLoop envf us).length = us.length) := by
  have hinst : bot.installsRecovery = true := by
    simp [Bot.installsRecovery, hph]
  have htrace : (bot.handleUpdate env u).trace =
      (bot.executeHandler env u).effects ++ (recoverBlock bot.panicHandler env v).1 := by
    unfold Bot.handleUpdate Bot.inlineRun
    rw [hpool]
    simp [hpanic, hinst]
  refine ⟨handleUpdate_panicOut_default bot env u hph, ?_, ?_, ?_, ?_,
    fun envf us => workerLoop_total_default bot envf hph us⟩
  · rw [htrace, hph, recoverBlock_default]
    cases hs : env.sendErr defaultTipMessage <;> simp [hs]
  · simp [defaultPanicHandler, defaultTipMessage]
  · rw [htrace, hph, recoverBlock_default]
    cases hs : env.sendErr defaultTipMessage <;> simp [hs]
  · intro e he
    rw [htrace, hph, recoverBlock_default, he]
    simp

/-- Concrete instantiation of c3_panic_recovered_worker_survives: a bot
whose only command handler panics with "boom" recovers, reports, replies
with the tip message, and its worker processes both of two events. -/
theorem c3_panic_recovered_worker_survives_witness :
    (Bot.handleUpdate
        { NewBot 4 [] with cmdHandlers := [("go", ⟨1, HandlerResult.panicked "boom"⟩)] }
        ⟨true, fun _ => none⟩
        ⟨1, some ⟨"/go", true, "go", ""⟩, none, none, none⟩).panicOut = none ∧
    Effect.reportErr (GoErr.panicErr "boom") ∈
      (Bot.handleUpdate
        { NewBot 4 [] with cmdHandlers := [("go", ⟨1, HandlerResult.panicked "boom"⟩)] }
        ⟨true, fun _ => none⟩
        ⟨1, some ⟨"/go", true, "go", ""⟩, none, none, none⟩).trace ∧
    Effect.reply defaultTipMessage ∈
      (Bot.handleUpdate
        { NewBot 4 [] with cmdHandlers := [("go", ⟨1, HandlerResult.panicked "boom"⟩)] }
        ⟨true, fun _ => none⟩
        ⟨1, some ⟨"/go", true, "go", ""⟩, none, none, none⟩).trace ∧
    (Bot.workerLoop
        { NewBot 4 [] with cmdHandlers := [("go", ⟨1, HandlerResult.panicked "boom"⟩)] }
        (fun _ => ⟨true, fun _ => none⟩)
        [⟨1, some ⟨"/go", true, "go", ""⟩, none, none, none⟩,
         ⟨2, some ⟨"/go", true, "go", ""⟩, none, none, none⟩]).length = 2 := by
  have h := c3_panic_recovered_worker_survives
    { NewBot 4 [] with cmdHandlers := [("go", ⟨1, HandlerResult.panicked "boom"⟩)] }
    ⟨true, fun _ => none⟩
    ⟨1, some ⟨"/go", true, "go", ""⟩, none, none, none⟩
    "boom" rfl rfl rfl
  exact ⟨h.1, h.2.1, h.2.2.2.1,
    h.2.2.2.2.2 (fun _ => ⟨true, fun _ => none⟩)
      [⟨1, some ⟨"/go", true, "go", ""⟩, none, none, none⟩,
       ⟨2, some ⟨"/go", true, "go", ""⟩, none, none, none⟩]⟩

/-- C1 (code bug): with a worker pool supplied and a successful
submission, handleUpdate records two runs of the execution lifecycle —
one in the pool and one inline — because the source has no return after
the successful Submit call; the claimed exactly-once execution holds
only when the submission fails or when no pool is supplied. -/
theorem c1_pool_submit_double_execution :
    (Bot.handleUpdate (WithWorkerPool true (NewBot 4 [])) ⟨true, fun _ => none⟩
        ⟨1, none, none, none, none⟩).execCount = 2 ∧
    (Bot.handleUpdate (WithWorkerPool true (NewBot 4 [])) ⟨false, fun _ => none⟩
        ⟨1, none, none, none, none⟩).execCount = 1 ∧
    (Bot.handleUpdate (NewBot 4 []) ⟨true, fun _ => none⟩
        ⟨1, none, none, none, none⟩).execCount = 1 :=
  ⟨rfl, rfl, rfl⟩

/-- The updates the acquisition loop enqueues from one batch form a
subsequence of the batch: each is enqueued at most once, in fetch
order. -/
theorem pollBatch_sublist (us : List Update) : ∀ off : Int,
    ((pollBatch off us).2).Sublist us := by
  induction us with
  | nil => intro off; simp [pollBatch]
  | cons u rest ih =>
      intro off
      by_cases h : u.updateID ≥ off
      · simp only [pollBatch, if_pos h]
        exact List.Sublist.cons₂ u (ih (u.updateID + 1))
      · simp only [pollBatch, if_neg h]
        exact List.Sublist.cons u (ih off)

/-- Every enqueued update has id at least the initial watermark: an
update below the watermark is never enqueued. -/
theorem pollBatch_mem_le (us : List Update) : ∀ (off : Int) (u : Update),
    u ∈ (pollBatch off us).2 → off ≤ u.updateID := by
  induction us with
  | nil => intro off u h; simp [pollBatch] at h
  | cons v rest ih =>
      intro off u h
      by_cases hc : v.updateID ≥ off
      · simp only [pollBatch, if_pos hc] at h
        rcases List.mem_cons.mp h with h1 | h2
        · subst h1; exact hc
        · have := ih (v.updateID + 1) u h2
          omega
      · simp only [pollBatch, if_neg hc] at h
        exact ih off u h

/-- The enqueued updates have strictly increasing ids: a re-delivered
id is dropped. -/
theorem pollBatch_pairwise (us : List Update) : ∀ off : Int,
    ((pollBatch off us).2).Pairwise (fun a b => a.updateID < b.updateID) := by
  induction us with
  | nil => intro off; simp [pollBatch]
  | cons v rest ih =>
      intro off
      by_cases hc : v.updateID ≥ off
      · simp only [pollBatch, if_pos hc]
        refine List.Pairwise.cons ?_ (ih (v.updateID + 1))
        intro b hb
        have := pollBatch_mem_le rest (v.updateID + 1) b hb
        omega
      · simp only [pollBatch, if_neg hc]
        exact ih off

/-- The operation trace of one batch is exactly, per enqueued update in
fetch order, a watermark write to id + 1 paired with the enqueue of that
update. -/
theorem pollBatchOps_eq_bind (us : List Update) : ∀ off : Int,
    pollBatchOps off us = ((pollBatch off us).2).flatMap
      (fun u => [PollOp.setOffset (u.updateID + 1), PollOp.enqueue u.updateID]) := by
  induction us with
  | nil => intro off; simp [pollBatch, pollBatchOps]
  | cons v rest ih =>
      intro off
      by_cases hc : v.updateID ≥ off
      · simp only [pollBatch, pollBatchOps, if_pos hc]
        simp [ih (v.updateID + 1)]
      · simp only [pollBatch, pollBatchOps, if_neg hc]
        exact ih off

/-- A batch of strictly increasing ids all at or above the watermark is
enqueued in full. -/
theorem pollBatch_complete (us : List Update) : ∀ off : Int,
    us.Pairwise (fun a b => a.updateID < b.updateID) →
    (∀ u ∈ us, off ≤ u.updateID) → (pollBatch off us).2 = us := by
  induction us with
  | nil => intro off _ _; rfl
  | cons v rest ih =>
      intro off hp hall
      have hc : v.updateID ≥ off := hall v (List.mem_cons_self v rest)
      simp only [pollBatch, if_pos hc]
      have hrest : ∀ u ∈ rest, v.updateID + 1 ≤ u.updateID := by
        intro u hu
        have := (List.pairwise_cons.mp hp).1 u hu
        omega
      rw [ih (v.updateID + 1) (List.pairwise_cons.mp hp).2 hrest]

/-- C2: iterating a fetched batch in order, each event with id at least
the current watermark advances the watermark to id + 1 and is enqueued
exactly once in fetch order, and each event with id below the current
watermark is dropped with no enqueue: the enqueued events form a
subsequence of the batch with strictly increasing ids all at or above
the initial watermark, each enqueue is paired with its watermark write
to id + 1, and a strictly increasing batch at or above the watermark is
enqueued in full. -/
theorem c2_poll_batch_watermark (off : Int) (us : List Update) :
    ((pollBatch off us).2).Sublist us ∧
    (∀ u ∈ (pollBatch off us).2, off ≤ u.updateID) ∧
    ((pollBatch off us).2).Pairwise (fun a b => a.updateID < b.updateID) ∧
    pollBatchOps off us = ((pollBatch off us).2).flatMap
      (fun u => [PollOp.setOffset (u.updateID + 1), PollOp.enqueue u.updateID]) ∧
    (us.Pairwise (fun a b => a.updateID < b.updateID) →
      (∀ u ∈ us, off ≤ u.updateID) → (pollBatch off us).2 = us) :=
  ⟨pollBatch_sublist us off, fun u h => pollBatch_mem_le us off u h,
   pollBatch_pairwise us off, pollBatchOps_eq_bind us off,
   fun hp hall => pollBatch_complete us off hp hall⟩

/-- Concrete instantiation of c2_poll_batch_watermark: from watermark 5,
the batch with ids 3, 7, 7, 9 enqueues exactly the updates with ids 7
and 9 (the stale 3 and the re-delivered 7 are dropped), and a clean
batch 7, 9 is enqueued in full. -/
theorem c2_poll_batch_watermark_witness :
    (pollBatch 5 [⟨3, none, none, none, none⟩, ⟨7, none, none, none, none⟩,
        ⟨7, none, none, none, none⟩, ⟨9, none, none, none, none⟩]).2.Sublist
      [⟨3, none, none, none, none⟩, ⟨7, none, none, none, none⟩,
        ⟨7, none, none, none, none⟩, ⟨9, none, none, none, none⟩] ∧
    (pollBatch 5 [⟨7, none, none, none, none⟩, ⟨9, none, none, none, none⟩]).2 =
      [⟨7, none, none, none, none⟩, ⟨9, none, none, none, none⟩] := by
  refine ⟨(c2_poll_batch_watermark 5 _).1, ?_⟩
  exact (c2_poll_batch_watermark 5
    [⟨7, none, none, none, none⟩, ⟨9, none, none, none, none⟩]).2.2.2.2
    (by decide) (by decide)

/-- C7 (counterexample): the claim says the watermark is mutated only
after the corresponding event has been successfully enqueued.  On the
batch with the single update of id 5 from watermark 0, the operation
trace of the source is the write of offset 6 followed by the enqueue of
5: the mutation precedes the enqueue, so no enqueue precedes it. -/
theorem c7_offset_mutated_before_enqueue :
    pollBatchOps 0 [⟨5, none, none, none, none⟩] =
      [PollOp.setOffset 6, PollOp.enqueue 5] ∧
    ¬ mutatedOnlyAfterEnqueue (pollBatchOps 0 [⟨5, none, none, none, none⟩]) := by
  have ht : pollBatchOps 0 [⟨5, none, none, none, none⟩] =
      [PollOp.setOffset 6, PollOp.enqueue 5] := by decide
  refine ⟨ht, ?_⟩
  rw [ht]
  intro hmo
  obtain ⟨j, hj, _⟩ := hmo 0 6 rfl
  omega

/-- The offset writes of one batch, read in trace order after the
initial watermark, are non-decreasing. -/
theorem pollBatchOps_offsets_chain (us : List Update) : ∀ off : Int,
    List.Chain' (fun a b => a ≤ b) (off :: setOffsetValues (pollBatchOps off us)) := by
  induction us with
  | nil => intro off; simp [pollBatchOps, setOffsetValues]
  | cons v rest ih =>
      intro off
      by_cases hc : v.updateID ≥ off
      · simp only [pollBatchOps, if_pos hc, setOffsetValues, List.filterMap_cons]
        rw [List.chain'_cons]
        exact ⟨by omega, ih (v.updateID + 1)⟩
      · simp only [pollBatchOps, if_neg hc]
        exact ih off

/-- Every offset write in the trace of one batch is immediately
followed by the enqueue of the corresponding event. -/
theorem pollBatchOps_just_before (us : List Update) : ∀ off : Int,
    mutatedJustBeforeEnqueue (pollBatchOps off us) := by
  induction us with
  | nil =>
      intro off i n h
      simp [pollBatchOps] at h
  | cons v rest ih =>
      intro off i n h
      by_cases hc : v.updateID ≥ off
      · simp only [pollBatchOps, if_pos hc] at h ⊢
        match i with
        | 0 =>
            simp only [List.get?_cons_zero, Option.some.injEq,
              PollOp.setOffset.injEq] at h
            simp only [List.get?_cons_succ, List.get?_cons_zero, Option.some.injEq,
              PollOp.enqueue.injEq]
            omega
        | 1 => simp at h
        | i + 2 =>
            simp only [List.get?_cons_succ] at h ⊢
            exact ih (v.updateID + 1) i n h
      · simp only [pollBatchOps, if_neg hc] at h ⊢
        exact ih off i n h

/-- C7 (amended): throughout the acquisition loop's run the watermark
is monotonically non-decreasing, and it is mutated immediately before —
not after — the corresponding event is enqueued into the Distribution
Channel. -/
theorem c7_offset_monotone_amended (off : Int) (us : List Update) :
    List.Chain' (fun a b => a ≤ b) (off :: setOffsetValues (pollBatchOps off us)) ∧
    mutatedJustBeforeEnqueue (pollBatchOps off us) :=
  ⟨pollBatchOps_offsets_chain us off, pollBatchOps_just_before us off⟩

/-- Concrete instantiation of c7_offset_monotone_amended on the batch
with ids 5 and 9 from watermark 0. -/
theorem c7_offset_monotone_amended_witness :
    List.Chain' (fun a b => a ≤ b)
      (0 :: setOffsetValues (pollBatchOps 0
        [⟨5, none, none, none, none⟩, ⟨9, none, none, none, none⟩])) ∧
    mutatedJustBeforeEnqueue (pollBatchOps 0
      [⟨5, none, none, none, none⟩, ⟨9, none, none, none, none⟩]) :=
  c7_offset_monotone_amended 0
    [⟨5, none, none, none, none⟩, ⟨9, none, none, none, none⟩]

/-- C4 (counterexample): the claim says that after Stop returns the
acquisition loop has observed cancellation and exited, cancellation
being observed at every blocking wait including the enqueue into a full
Distribution Channel.  With capacity 1 and one worker, the run in which
the loop fetches the batch 7, 8, enqueues 7 (filling the channel), Stop
cancels, the worker takes its Done branch and exits, and Stop's wait
returns, reaches a state where Stop has returned but the loop is still
blocked in the enqueue of 8 — and that state has no transition at all:
the bare channel send observes no cancellation, and Stop never waited
for the loop. -/
theorem c4_stop_leaves_poller_blocked :
    Reachable 1 ⟨false, [], 1, PState.top, false⟩ ⟨true, [7], 0, PState.sending [8], true⟩ ∧
    (⟨true, [7], 0, PState.sending [8], true⟩ : Sys).stopReturned = true ∧
    (⟨true, [7], 0, PState.sending [8], true⟩ : Sys).poller ≠ PState.exited ∧
    ∀ s' : Sys, ¬ Step 1 (⟨true, [7], 0, PState.sending [8], true⟩ : Sys) s' := by
  refine ⟨?_, rfl, by simp, ?_⟩
  · refine Relation.ReflTransGen.head (Step.pollFetch [7, 8] rfl rfl) ?_
    refine Relation.ReflTransGen.head (Step.pollSend 7 [8] rfl (by simp)) ?_
    refine Relation.ReflTransGen.head (Step.cancel rfl) ?_
    refine Relation.ReflTransGen.head (Step.workerDone rfl (by decide)) ?_
    exact Relation.ReflTransGen.single (Step.stopReturn rfl rfl rfl)
  · intro s' h
    cases h <;> simp_all

/-- In any run that starts before Stop has returned, once Stop has
returned every worker has run wg.Done and the cancellation signal was
raised: Stop's wait group covers exactly the workers. -/
theorem stopReturned_invariant (cap : Nat) (s0 s : Sys) (h : Reachable cap s0 s)
    (h0 : s0.stopReturned = false) :
    s.stopReturned = true → s.workers = 0 ∧ s.cancelled = true := by
  induction h with
  | refl => intro hs; rw [h0] at hs; cases hs
  | tail hsteps hstep ih => intro hs; cases hstep <;> simp_all

/-- C4 (amended): after Stop returns, all workers have observed the
cancellation signal and exited — Stop waits only for the workers, not
for the acquisition loop.  Cancellation is observed cooperatively at
the top of each worker's blocking wait and at the top of each loop
iteration; the loop's enqueue into a full Distribution Channel,
however, does not observe cancellation (see the counterexample). -/
theorem c4_cancellation_observed_amended (cap : Nat) (s0 s : Sys)
    (h : Reachable cap s0 s) (h0 : s0.stopReturned = false) :
    (s.stopReturned = true → s.workers = 0 ∧ s.cancelled = true) ∧
    (s.cancelled = true → 0 < s.workers → ∃ t, Step cap s t) ∧
    (s.cancelled = true → s.poller = PState.top →
      Step cap s { s with poller := PState.exited }) :=
  ⟨stopReturned_invariant cap s0 s h h0,
   fun hc hw => ⟨_, Step.workerDone hc hw⟩,
   fun hc hp => Step.pollTopExit hp hc⟩

/-- Concrete instantiation of c4_cancellation_observed_amended: in a
cancelled state with one live worker and the loop at its top, both the
worker and the loop can observe cancellation. -/
theorem c4_cancellation_observed_amended_witness :
    (∃ t, Step 1 (⟨true, [], 1, PState.top, false⟩ : Sys) t) ∧
    Step 1 (⟨true, [], 1, PState.top, false⟩ : Sys)
      { (⟨true, [], 1, PState.top, false⟩ : Sys) with poller := PState.exited } := by
  have h := c4_cancellation_observed_amended 1 ⟨true, [], 1, PState.top, false⟩
    ⟨true, [], 1, PState.top, false⟩ Relation.ReflTransGen.refl rfl
  exact ⟨h.2.1 rfl (by decide), h.2.2 rfl rfl⟩

end TgBot

